import Mathlib

/-!
Verification development for the `colorust` MLT filtergraph core
(`src/mlt.rs` and the filter model in `src/ffmpeg.rs`), shallowly
embedded in Lean.

Modelling conventions:
* An XML `<property>` element is its `name` attribute plus optional text.
* A `filter` element is its ordered list of `property` descendants.
* `f32` parameters are modelled as exact decimal values
  `mantissa * 10 ^ exponent` (`F32` below); their Rust `Display`
  formatting is modelled as the terminating decimal expansion without
  trailing zeros, which agrees with Rust's shortest round-trip output on
  every value the claims exercise.
* A Rust panic (a failed `unwrap`) is modelled by an `Option`-valued
  function returning `none`.
* `HashMap<String, String>` is modelled as an association list with
  first-match lookup and replace-on-insert (last write wins).
-/

/-- Model of an MLT `<property name="...">text</property>` element: the
`name` attribute and the optional text content (`roxmltree`'s
`Node::text` returns `None` for an element without a text child). -/
structure PropertyElem where
  name : String
  text : Option String
deriving DecidableEq

/-- Rust's `str::contains(char)`. -/
def containsChar (s : String) (c : Char) : Bool :=
  s.data.any (fun x => x == c)

/-- The substring of `v` following its first `'='`: this is
`v.splitn(2, '=').last()` from `get_property_value` (splitting into at
most two pieces at the first `'='` and keeping the final piece). -/
def afterFirstEq (v : String) : String :=
  String.mk ((v.data.dropWhile (fun c => c != '=')).tail)

/-- Model of `mlt.rs::get_property_value`, parameterised by the target
type's `FromStr` parser: find the first `property` descendant called
`name`, take its text, drop a leading `TIMECODE=` prefix by keeping only
what follows the first `'='` when the text contains one, and parse;
parse failure yields `none`. -/
def get_property_value (parse : String → Option α) (node : List PropertyElem)
    (name : String) : Option α :=
  ((node.find? (fun p => p.name == name)).bind (fun p =>
    p.text.map (fun v =>
      if containsChar v '=' then parse (afterFirstEq v) else parse v))).join

/-- Numeric value of a list of ASCII digits. -/
def digitsToNat (cs : List Char) : Nat :=
  cs.foldl (fun a c => a * 10 + (c.toNat - 48)) 0

/-- Shared shape of Rust's integer `FromStr`: an optional sign followed
by one or more ASCII digits (range checks are applied by the callers). -/
def parseSignedDigits (s : String) : Option Int :=
  match s.data with
  | [] => none
  | '+' :: rest =>
    if rest.isEmpty then none
    else if rest.all Char.isDigit then some (digitsToNat rest) else none
  | '-' :: rest =>
    if rest.isEmpty then none
    else if rest.all Char.isDigit then some (-(digitsToNat rest : Int)) else none
  | cs =>
    if cs.all Char.isDigit then some (digitsToNat cs) else none

/-- Rust `i32::from_str` (used for the `disable` property). -/
def parseI32 (s : String) : Option Int :=
  (parseSignedDigits s).bind (fun n =>
    if -(2 ^ 31) ≤ n ∧ n < 2 ^ 31 then some n else none)

/-- Rust `u32::from_str` (used for `av.temperature`). -/
def parseU32 (s : String) : Option Nat :=
  match s.data with
  | [] => none
  | '+' :: rest =>
    if rest.isEmpty then none
    else if rest.all Char.isDigit then
      if digitsToNat rest < 2 ^ 32 then some (digitsToNat rest) else none
    else none
  | cs =>
    if cs.all Char.isDigit then
      if digitsToNat cs < 2 ^ 32 then some (digitsToNat cs) else none
    else none

/-- Rust `String::from_str`, which never fails. -/
def parseStr (s : String) : Option String :=
  some s

/-- The exact decimal value `mantissa * 10 ^ exponent` denoted by a
parsed `f32` literal. (IEEE rounding and the special forms `inf`/`NaN`
lie outside the model; the claims only exercise exact decimal
literals.) -/
structure F32 where
  mantissa : Int
  exponent : Int
deriving DecidableEq

/-- Rust `f32::from_str` on
`[+-]? (digits [. digits*] | . digits+) ([eE] [+-]? digits+)?`:
the literal's exact decimal value. -/
def parseF32 (s : String) : Option F32 :=
  let withSign : Int × List Char :=
    match s.data with
    | '+' :: r => (1, r)
    | '-' :: r => (-1, r)
    | r => (1, r)
  let sgn := withSign.1
  let body := withSign.2
  let mant := body.takeWhile (fun c => c != 'e' && c != 'E')
  let expPart := body.drop mant.length
  let exp : Option Int :=
    match expPart with
    | [] => some 0
    | _ :: '+' :: ds =>
      if !ds.isEmpty && ds.all Char.isDigit then some (digitsToNat ds) else none
    | _ :: '-' :: ds =>
      if !ds.isEmpty && ds.all Char.isDigit then some (-(digitsToNat ds : Int)) else none
    | _ :: ds =>
      if !ds.isEmpty && ds.all Char.isDigit then some (digitsToNat ds) else none
  let ip := mant.takeWhile Char.isDigit
  let fracPart := mant.drop ip.length
  let frac : Option (List Char) :=
    match fracPart with
    | [] => if ip.isEmpty then none else some []
    | '.' :: fs =>
      if fs.all Char.isDigit && (!ip.isEmpty || !fs.isEmpty) then some fs else none
    | _ => none
  match exp, frac with
  | some e, some fs =>
    some ⟨sgn * (digitsToNat ip * 10 ^ fs.length + digitsToNat fs : Nat),
      e - fs.length⟩
  | _, _ => none

/-- Drop the trailing `'0'` characters of a digit list. -/
def trimTrailingZeros (cs : List Char) : List Char :=
  (cs.reverse.dropWhile (fun c => c == '0')).reverse

/-- Model of Rust's default `Display` (`format!("{}", x)`) for an `f32`
field, over the exact decimal the field models: integral values print
with no decimal point, all other values print their terminating decimal
expansion without trailing zeros. On the values denoted by parsed
decimal literals this agrees with Rust's shortest round-trip output. -/
def fmtF32 (v : F32) : String :=
  let sign := if v.mantissa < 0 then "-" else ""
  let n := v.mantissa.natAbs
  if 0 ≤ v.exponent then sign ++ toString (n * 10 ^ v.exponent.toNat)
  else
    let k := (-v.exponent).toNat
    let intPart := n / 10 ^ k
    let fr := n % 10 ^ k
    if fr = 0 then sign ++ toString intPart
    else
      let ds := toString fr
      let padded := String.mk (List.replicate (k - ds.length) '0') ++ ds
      sign ++ toString intPart ++ "." ++ String.mk (trimTrailingZeros padded.data)

/-- `FilterExposure` from `ffmpeg.rs` (its GUI-only behaviour is out of
scope; `f32` fields are modelled as exact decimals). -/
structure FilterExposure where
  is_active : Bool
  exposure : F32
  black : F32
deriving DecidableEq

/-- `FilterExposure::to_filter_string`:
`format!("exposure=exposure={}:black={}", self.exposure, self.black)`. -/
def FilterExposure.to_filter_string (f : FilterExposure) : String :=
  "exposure=exposure=" ++ fmtF32 f.exposure ++ ":black=" ++ fmtF32 f.black

/-- `impl TryFrom<&Node> for FilterExposure`: require
`mlt_service = avfilter.exposure`, parse `av.exposure` and `av.black`
as `f32`, and derive activity from `disable`. -/
def FilterExposure.tryFrom (node : List PropertyElem) : Option FilterExposure :=
  if get_property_value parseStr node "mlt_service" ≠ some "avfilter.exposure" then none
  else
    (get_property_value parseF32 node "av.exposure").bind (fun exposure =>
      (get_property_value parseF32 node "av.black").bind (fun black =>
        let disabled := (get_property_value parseI32 node "disable").getD 0 == 1
        some ⟨!disabled, exposure, black⟩))

/-- `FilterLut` from `ffmpeg.rs`. -/
structure FilterLut where
  is_active : Bool
  file : String
  interpolation : String
deriving DecidableEq

/-- `FilterLut::to_filter_string`:
`format!("lut3d=file={}:interp={}", self.file, self.interpolation)`. -/
def FilterLut.to_filter_string (f : FilterLut) : String :=
  "lut3d=file=" ++ f.file ++ ":interp=" ++ f.interpolation

/-- `impl TryFrom<&Node> for FilterLut`. -/
def FilterLut.tryFrom (node : List PropertyElem) : Option FilterLut :=
  if get_property_value parseStr node "mlt_service" ≠ some "avfilter.lut3d" then none
  else
    (get_property_value parseStr node "av.file").bind (fun file =>
      (get_property_value parseStr node "av.interp").bind (fun interpolation =>
        let disabled := (get_property_value parseI32 node "disable").getD 0 == 1
        some ⟨!disabled, file, interpolation⟩))

/-- `FilterEq` from `ffmpeg.rs`. -/
structure FilterEq where
  is_active : Bool
  contrast : F32
  brightness : F32
  saturation : F32
  gamma : F32
  gamma_r : F32
  gamma_g : F32
  gamma_b : F32
deriving DecidableEq

/-- `FilterEq::to_filter_string`: the `eq=...` fragment with the source's
fixed key order. -/
def FilterEq.to_filter_string (f : FilterEq) : String :=
  "eq=contrast=" ++ fmtF32 f.contrast ++
  ":brightness=" ++ fmtF32 f.brightness ++
  ":saturation=" ++ fmtF32 f.saturation ++
  ":gamma=" ++ fmtF32 f.gamma ++
  ":gamma_r=" ++ fmtF32 f.gamma_r ++
  ":gamma_g=" ++ fmtF32 f.gamma_g ++
  ":gamma_b=" ++ fmtF32 f.gamma_b

/-- `impl TryFrom<&Node> for FilterEq`. -/
def FilterEq.tryFrom (node : List PropertyElem) : Option FilterEq :=
  if get_property_value parseStr node "mlt_service" ≠ some "avfilter.eq" then none
  else
    (get_property_value parseF32 node "av.contrast").bind (fun contrast =>
      (get_property_value parseF32 node "av.brightness").bind (fun brightness =>
        (get_property_value parseF32 node "av.saturation").bind (fun saturation =>
          (get_property_value parseF32 node "av.gamma").bind (fun gamma =>
            (get_property_value parseF32 node "av.gamma_r").bind (fun gamma_r =>
              (get_property_value parseF32 node "av.gamma_g").bind (fun gamma_g =>
                (get_property_value parseF32 node "av.gamma_b").bind (fun gamma_b =>
                  let disabled := (get_property_value parseI32 node "disable").getD 0 == 1
                  some ⟨!disabled, contrast, brightness, saturation,
                    gamma, gamma_r, gamma_g, gamma_b⟩)))))))

/-- `FilterColortemp` from `ffmpeg.rs` (`temperature` is a `u32`). -/
structure FilterColortemp where
  is_active : Bool
  temperature : Nat
deriving DecidableEq

/-- `FilterColortemp::to_filter_string`:
`format!("colortemperature=temperature={}:pl=1", self.temperature)`. -/
def FilterColortemp.to_filter_string (f : FilterColortemp) : String :=
  "colortemperature=temperature=" ++ toString f.temperature ++ ":pl=1"

/-- `impl TryFrom<&Node> for FilterColortemp`. -/
def FilterColortemp.tryFrom (node : List PropertyElem) : Option FilterColortemp :=
  if get_property_value parseStr node "mlt_service" ≠ some "avfilter.colortemperature" then none
  else
    (get_property_value parseU32 node "av.temperature").bind (fun temperature =>
      let disabled := (get_property_value parseI32 node "disable").getD 0 == 1
      some ⟨!disabled, temperature⟩)

/-- The closed tagged union of the filter kinds `get_filter_strings`
recognises (the source goes through `Box<dyn Filter>`, but the four
`TryFrom` conversions tried in lines 38-49 of `mlt.rs` fix this set). -/
inductive Filt where
  | lut (f : FilterLut)
  | eq (f : FilterEq)
  | exposure (f : FilterExposure)
  | colortemp (f : FilterColortemp)
deriving DecidableEq

/-- Dynamic `Filter::is_active` dispatch. -/
def Filt.is_active : Filt → Bool
  | .lut f => f.is_active
  | .eq f => f.is_active
  | .exposure f => f.is_active
  | .colortemp f => f.is_active

/-- Dynamic `Filter::to_filter_string` dispatch. -/
def Filt.to_filter_string : Filt → String
  | .lut f => f.to_filter_string
  | .eq f => f.to_filter_string
  | .exposure f => f.to_filter_string
  | .colortemp f => f.to_filter_string

/-- The fixed `mlt_service` identifier of each filter kind. -/
def Filt.service : Filt → String
  | .lut _ => "avfilter.lut3d"
  | .eq _ => "avfilter.eq"
  | .exposure _ => "avfilter.exposure"
  | .colortemp _ => "avfilter.colortemperature"

/-- The if/else-if conversion chain of `get_filter_strings` (lines 38-49
of `mlt.rs`): try Lut, then Eq, then Exposure, then Colortemp; the first
successful conversion wins, and an element matching none is dropped. -/
def parse_filter (node : List PropertyElem) : Option Filt :=
  match FilterLut.tryFrom node with
  | some f => some (.lut f)
  | none =>
    match FilterEq.tryFrom node with
    | some f => some (.eq f)
    | none =>
      match FilterExposure.tryFrom node with
      | some f => some (.exposure f)
      | none =>
        match FilterColortemp.tryFrom node with
        | some f => some (.colortemp f)
        | none => none

/-- A `playlist > entry` element: its `producer` reference attribute
(`None` when absent) and the property lists of its `filter` children,
in document order. -/
structure Entry where
  producer : Option String
  filters : List (List PropertyElem)

/-- A child of the document's top element that the core inspects: a
`producer` (or `chain` — both play the same role in
`get_url_from_producer`) with its optional `id` attribute and its
`property` children, a `playlist` with its `entry` children, or any
other element. -/
inductive TopElem where
  | producer (id : Option String) (props : List PropertyElem)
  | playlist (entries : List Entry)
  | other

/-- The playlist entries of the document in order:
`children().filter(playlist).flat_map(children().filter(entry))`. -/
def entriesOf (doc : List TopElem) : List Entry :=
  (doc.map (fun t =>
    match t with
    | .playlist es => es
    | _ => [])).flatten

/-- The `find` over producer/chain children in `get_url_from_producer`
(lines 68-73 of `mlt.rs`). The closure unwraps the `id` attribute, so a
producer/chain without `id` reached before a match panics: outer `none`
models that panic, `some none` means "no matching element". -/
def findProducerProps : List TopElem → String → Option (Option (List PropertyElem))
  | [], _ => some none
  | .producer id props :: rest, target =>
    match id with
    | none => none
    | some i => if i == target then some (some props) else findProducerProps rest target
  | _ :: rest, target => findProducerProps rest target

/-- `mlt.rs::get_url_from_producer`: find the producer/chain whose `id`
matches, prefer its `kdenlive:originalurl` property, fall back to
`resource`, and return the chosen property's text. Outer `none` models a
panic inside the search; `some none` models the function returning
`None` (element not found, neither property present, or no text). -/
def get_url_from_producer (doc : List TopElem) (producer : String) :
    Option (Option String) :=
  match findProducerProps doc producer with
  | none => none
  | some none => some none
  | some (some props) =>
    some ((((props.find? (fun p => p.name == "kdenlive:originalurl")).orElse
      (fun _ => props.find? (fun p => p.name == "resource"))).bind
        (fun p => p.text)))

/-- First-match lookup in the association-list model of the `HashMap`. -/
def lookupHM (m : List (String × String)) (k : String) : Option String :=
  (m.find? (fun p => p.1 == k)).map (fun p => p.2)

/-- Replace-on-insert (`HashMap::insert`, last write wins). -/
def insertHM (m : List (String × String)) (k v : String) : List (String × String) :=
  (k, v) :: m.filter (fun p => p.1 != k)

/-- The per-entry filter string of `get_filter_strings`: convert each
`filter` child, keep the active conversions, render each and join with
commas in document order. -/
def entryFilterString (filters : List (List PropertyElem)) : String :=
  String.intercalate ","
    (filters.filterMap (fun n =>
      ((parse_filter n).filter Filt.is_active).map Filt.to_filter_string))

/-- One iteration of the entry loop in `get_filter_strings`
(lines 32-62 of `mlt.rs`): unwrap the `producer` attribute, build the
joined filter string, and if it is non-empty unwrap the resolved URL and
insert. `none` models a panic. -/
def processEntry (doc : List TopElem) (m : List (String × String)) (e : Entry) :
    Option (List (String × String)) :=
  match e.producer with
  | none => none
  | some producer =>
    let filter_string := entryFilterString e.filters
    if filter_string = "" then some m
    else
      match get_url_from_producer doc producer with
      | none => none
      | some none => none
      | some (some url) => some (insertHM m url filter_string)

/-- The entry loop of `get_filter_strings` over a given entry list. -/
def processEntries (doc : List TopElem) (es : List Entry)
    (m : List (String × String)) : Option (List (String × String)) :=
  es.foldlM (processEntry doc) m

/-- `mlt.rs::get_filter_strings`, over the children of the document's
top element. `none` models a panic (a failed `unwrap`). -/
def get_filter_strings (doc : List TopElem) : Option (List (String × String)) :=
  processEntries doc (entriesOf doc) []

/-! The document rewriter (`add_filtergraph_to_producers`) -/

/-- `pat` occurs as a contiguous sublist of the second argument. -/
def listContainsSub (pat : List Char) : List Char → Bool
  | [] => pat.isEmpty
  | c :: t => pat.isPrefixOf (c :: t) || listContainsSub pat t

/-- Rust's `str::contains` with a string pattern: substring occurrence. -/
def strContains (hay pat : String) : Bool :=
  listContainsSub pat.data hay.data

/-- The deletion pattern `name="filtergraph"` of line 99 of `mlt.rs`. -/
def fgPat : String :=
  "name=\"filtergraph\""

/-- The inserted line of line 114-116 of `mlt.rs`:
`format!("  <property name=\"filtergraph\">{filter_string}</property>")`. -/
def mkFgLine (fs : String) : String :=
  "  <property " ++ fgPat ++ ">" ++ fs ++ "</property>"

/-- `pat` occurs in `s` starting at index `i`. -/
def matchesAt (s pat : List Char) (i : Nat) : Bool :=
  pat.isPrefixOf (s.drop i)

/-- Least index at which `pat` occurs in `s`. -/
def firstOccur (s pat : List Char) : Option Nat :=
  (List.range (s.length + 1)).find? (matchesAt s pat)

/-- Greatest index `j` with `lo ≤ j ≤ hi` at which `pat` occurs in `s`. -/
def lastOccurInRange (s pat : List Char) (lo hi : Nat) : Option Nat :=
  (((List.range (hi + 1 - lo)).map (fun k => lo + k)).filter
    (matchesAt s pat)).getLast?

/-- The literal pieces of the property regex
`<property name=".*">(?P<value>.*)</property>`. -/
def rePropOpen : List Char :=
  "<property name=\"".data

/-- See `rePropOpen`. -/
def reQuoteGt : List Char :=
  "\">".data

/-- See `rePropOpen`. -/
def rePropClose : List Char :=
  "</property>".data

/-- Model of `re_property.captures(line)?.name("value")` for the regex
`<property name=".*">(?P<value>.*)</property>` under the regex crate's
leftmost match with greedy (preference-order) quantifiers: the match
starts at the first occurrence of `<property name="`, the first `.*`
extends to the last `">` that still leaves a later `</property>`, and
the `value` group extends to the last `</property>` of the line. -/
def reCaptureValue (line : String) : Option String :=
  let s := line.data
  (firstOccur s rePropOpen).bind (fun i =>
    (lastOccurInRange s rePropClose 0 s.length).bind (fun k =>
      (lastOccurInRange s reQuoteGt (i + rePropOpen.length) (k - 2)).map (fun j =>
        String.mk ((s.drop (j + 2)).take (k - (j + 2))))))

/-- The insertion decision of lines 102-117 of `mlt.rs`: if the line
contains an `originalurl`/`resource` property opener, capture the
property value through the regex, look it up in the map, and append
`,append_filter` when requested; `some fs` means a line
`mkFgLine fs` is pushed before the current line is re-emitted. -/
def lineInsertion (m : List (String × String)) (append_filter : Option String)
    (line : String) : Option String :=
  if strContains line "<property name=\"kdenlive:originalurl" ||
      strContains line "<property name=\"resource" then
    match reCaptureValue line with
    | some url =>
      match lookupHM m url with
      | some fs =>
        some (match append_filter with
          | some a => fs ++ "," ++ a
          | none => fs)
      | none => none
    | none => none
  else none

/-- The line loop of `add_filtergraph_to_producers` (lines 97-121 of
`mlt.rs`), as a fold over the input lines with the `output` vector as
accumulator: a line containing `name="filtergraph"` is skipped when
`delete_existing`; otherwise the inserted filtergraph line (if any) is
pushed and then the line itself is pushed. -/
def rewriteLines (lines : List String) (m : List (String × String))
    (delete_existing : Bool) (append_filter : Option String) : List String :=
  lines.foldl (fun output line =>
    if delete_existing && strContains line fgPat then output
    else
      (match lineInsertion m append_filter line with
        | some fs => output ++ [mkFgLine fs]
        | none => output) ++ [line]) []

/-- Strip one trailing `'\r'` (Rust's `strip_suffix('\r')`). -/
def stripCR (l : String) : String :=
  if l.data.getLast? = some '\r' then String.mk l.data.dropLast else l

/-- Split a character list at every `'\n'`, keeping the (possibly
empty) pieces between the separators. -/
def splitOnNewline : List Char → List (List Char)
  | [] => [[]]
  | '\n' :: rest => [] :: splitOnNewline rest
  | c :: rest =>
    match splitOnNewline rest with
    | [] => [[c]]
    | p :: ps => (c :: p) :: ps

/-- Rust's `str::lines()`: split at `'\n'`, strip a `'\r'` from pieces
that were terminated by `'\n'` (i.e. every piece except a non-empty
final piece), and drop the empty final piece a trailing `'\n'` leaves. -/
def rustLines (s : String) : List String :=
  let ps := (splitOnNewline s.data).map String.mk
  ps.dropLast.map stripCR ++
    (match ps.getLast? with
      | some "" => []
      | some l => [l]
      | none => [])

/-- `mlt.rs::add_filtergraph_to_producers`: split the document into
lines, rewrite them, and join with `"\n"`. -/
def add_filtergraph_to_producers (xml : String) (filter_strings : List (String × String))
    (delete_existing : Bool) (append_filter : Option String) : String :=
  String.intercalate "\n"
    (rewriteLines (rustLines xml) filter_strings delete_existing append_filter)

/-- The per-line emission of `rewriteLines`, used to state its
concatenation form. -/
def emitLine (m : List (String × String)) (delete_existing : Bool)
    (append_filter : Option String) (line : String) : List String :=
  if delete_existing && strContains line fgPat then []
  else
    (match lineInsertion m append_filter line with
      | some fs => [mkFgLine fs]
      | none => []) ++ [line]

/-! Helper lemmas about the rewriter -/

/-- The imperative line loop is the concatenation of the per-line
emissions. -/
theorem rewriteLines_eq_flatMap (ls : List String) (m : List (String × String))
    (del : Bool) (app : Option String) :
    rewriteLines ls m del app = ls.flatMap (emitLine m del app) := by
  have haux : ∀ (l : List String) (acc : List String),
      l.foldl (fun output line =>
        if del && strContains line fgPat then output
        else
          (match lineInsertion m app line with
            | some fs => output ++ [mkFgLine fs]
            | none => output) ++ [line]) acc = acc ++ l.flatMap (emitLine m del app) := by
    intro l
    induction l with
    | nil => intro acc; simp
    | cons a t ih =>
      intro acc
      rw [List.foldl_cons, ih, List.flatMap_cons]
      unfold emitLine
      split
      · simp
      · cases lineInsertion m app a <;> simp
  exact (haux ls []).trans (by simp)

/-- `listContainsSub` decides contiguous-sublist occurrence. -/
theorem listContainsSub_iff (pat hay : List Char) :
    listContainsSub pat hay = true ↔ pat <:+: hay := by
  induction hay with
  | nil => simp [listContainsSub, List.isEmpty_iff]
  | cons c t ih =>
    simp [listContainsSub, List.isPrefixOf_iff_prefix, ih, List.infix_cons_iff]

/-- The inserted line always contains the deletion pattern
`name="filtergraph"`. -/
theorem strContains_mkFgLine (fs : String) : strContains (mkFgLine fs) fgPat = true := by
  rw [strContains, listContainsSub_iff]
  refine ⟨"  <property ".data, (">" ++ fs ++ "</property>").data, ?_⟩
  simp [mkFgLine, String.data_append]

/-- What `emitLine` produces for a surviving line with an insertion. -/
theorem emitLine_insert {m : List (String × String)} {del : Bool}
    {app : Option String} {line : String} {fs : String}
    (hdel : (del && strContains line fgPat) = false)
    (hins : lineInsertion m app line = some fs) :
    emitLine m del app line = [mkFgLine fs, line] := by
  unfold emitLine
  rw [hdel, hins]
  simp

/-- A line containing the pattern is dropped when deletion is on. -/
theorem emitLine_delete {m : List (String × String)} {app : Option String}
    {line : String} (hfg : strContains line fgPat = true) :
    emitLine m true app line = [] := by
  unfold emitLine
  rw [hfg]
  simp

/-! Claim theorems about the rewriter -/

/-- Claim C2, counterexample: On a single `resource` line whose value is in
the map, the rewriter emits the new `filtergraph` line *before* the
matched line, not after it as the claim states. -/
theorem C2_counterexample :
    add_filtergraph_to_producers "  <property name=\"resource\">a.mp4</property>"
        [("a.mp4", "f")] false none =
      "  <property name=\"filtergraph\">f</property>\n" ++
        "  <property name=\"resource\">a.mp4</property>" ∧
    add_filtergraph_to_producers "  <property name=\"resource\">a.mp4</property>"
        [("a.mp4", "f")] false none ≠
      "  <property name=\"resource\">a.mp4</property>\n" ++
        "  <property name=\"filtergraph\">f</property>" := by
  constructor
  · rfl
  · decide

/-- Claim C2, amended: For every input line that declares a
`kdenlive:originalurl` or `resource` property whose captured value is a
key of the map (and survives deletion), the inserted filtergraph line is
placed immediately *preceding* the matched line in the output: the
inserted line is emitted first, then the matched line. -/
theorem C2_inserted_line_precedes_matched_line
    (m : List (String × String)) (del : Bool) (app : Option String)
    (pre post : List String) (line fs : String)
    (hdel : (del && strContains line fgPat) = false)
    (hins : lineInsertion m app line = some fs) :
    rewriteLines (pre ++ line :: post) m del app =
      rewriteLines pre m del app ++
        mkFgLine fs :: line :: rewriteLines post m del app := by
  rw [rewriteLines_eq_flatMap, rewriteLines_eq_flatMap, rewriteLines_eq_flatMap,
    List.flatMap_append, List.flatMap_cons, emitLine_insert hdel hins]
  simp

/-- Claim C2, witness for the amended theorem. -/
theorem C2_witness :
    ((false && strContains "  <property name=\"resource\">a.mp4</property>" fgPat) = false ∧
      lineInsertion [("a.mp4", "f")] none
        "  <property name=\"resource\">a.mp4</property>" = some "f") ∧
    rewriteLines ["  <property name=\"resource\">a.mp4</property>"]
        [("a.mp4", "f")] false none =
      rewriteLines [] [("a.mp4", "f")] false none ++
        mkFgLine "f" :: "  <property name=\"resource\">a.mp4</property>" ::
          rewriteLines [] [("a.mp4", "f")] false none := by
  refine ⟨⟨by decide, by decide⟩, ?_⟩
  exact C2_inserted_line_precedes_matched_line [("a.mp4", "f")] false none [] []
    "  <property name=\"resource\">a.mp4</property>" "f" (by decide) (by decide)

/-- Claim C4, counterexample: A single producer that declares *both*
`kdenlive:originalurl` and `resource` with the same mapped value
receives two inserted `filtergraph` lines under `delete_existing=true`,
not exactly one. -/
theorem C4_counterexample :
    rewriteLines
        ["<producer id=\"p1\">",
         "  <property name=\"kdenlive:originalurl\">a.mp4</property>",
         "  <property name=\"resource\">a.mp4</property>",
         "</producer>"]
        [("a.mp4", "f")] true none =
      ["<producer id=\"p1\">",
       mkFgLine "f",
       "  <property name=\"kdenlive:originalurl\">a.mp4</property>",
       mkFgLine "f",
       "  <property name=\"resource\">a.mp4</property>",
       "</producer>"] ∧
    (rewriteLines
        ["<producer id=\"p1\">",
         "  <property name=\"kdenlive:originalurl\">a.mp4</property>",
         "  <property name=\"resource\">a.mp4</property>",
         "</producer>"]
        [("a.mp4", "f")] true none).countP (fun l => strContains l fgPat) = 2 := by
  constructor
  · rfl
  · rfl

/-- Claim C4, amended: With `delete_existing=true` the output contains
exactly one `filtergraph` line per input line that survives deletion and
triggers an insertion (a producer declaring both `kdenlive:originalurl`
and `resource` with mapped values therefore receives two), and zero
otherwise; with `delete_existing=false` every input line — including a
pre-existing `filtergraph` line — is passed through unchanged, and the
insertion rule (`lineInsertion`) is the same one applied for
`delete_existing=true`, so it is independent of the flag. -/
theorem C4_one_insertion_per_matched_line
    (ls : List String) (m : List (String × String)) (app : Option String) :
    (rewriteLines ls m true app).countP (fun l => strContains l fgPat) =
      ls.countP (fun l => !strContains l fgPat && (lineInsertion m app l).isSome) ∧
    rewriteLines ls m true app =
      ls.flatMap (fun l =>
        if strContains l fgPat then []
        else
          (match lineInsertion m app l with
            | some fs => [mkFgLine fs]
            | none => []) ++ [l]) ∧
    rewriteLines ls m false app =
      ls.flatMap (fun l =>
        (match lineInsertion m app l with
          | some fs => [mkFgLine fs]
          | none => []) ++ [l]) := by
  refine ⟨?_, ?_, ?_⟩
  · rw [rewriteLines_eq_flatMap]
    induction ls with
    | nil => simp
    | cons a t ih =>
      rw [List.flatMap_cons, List.countP_append, ih, List.countP_cons]
      cases hfg : strContains a fgPat with
      | true =>
        rw [emitLine_delete hfg]
        simp [hfg]
      | false =>
        cases hins : lineInsertion m app a with
        | none =>
          simp [emitLine, hfg, hins, List.countP_cons]
        | some fs =>
          rw [emitLine_insert (by simp [hfg]) hins]
          simp [hfg, hins, List.countP_cons, strContains_mkFgLine, Nat.add_comm]
  · rw [rewriteLines_eq_flatMap]
    congr 1
  · rw [rewriteLines_eq_flatMap]
    congr 1

/-- Claim C5: Pass-through: the non-`filtergraph` lines of the output are
exactly the non-`filtergraph` lines of the input, byte-identical and in
their original order; every output line is either an input line or an
inserted `filtergraph` line; and with `delete_existing=false` the whole
input (pre-existing `filtergraph` lines included) survives in order as a
sublist of the output. -/
theorem C5_unrelated_lines_pass_through
    (ls : List String) (m : List (String × String)) (del : Bool)
    (app : Option String) :
    (rewriteLines ls m del app).filter (fun l => !strContains l fgPat) =
      ls.filter (fun l => !strContains l fgPat) ∧
    List.Forall (fun l => l ∈ ls ∨ ∃ fs, l = mkFgLine fs)
      (rewriteLines ls m del app) ∧
    ls.Sublist (rewriteLines ls m false app) := by
  refine ⟨?_, ?_, ?_⟩
  · rw [rewriteLines_eq_flatMap]
    induction ls with
    | nil => simp
    | cons a t ih =>
      rw [List.flatMap_cons, List.filter_append, ih, List.filter_cons]
      cases hfg : strContains a fgPat with
      | true =>
        cases hdel : del with
        | true => rw [emitLine_delete hfg]; simp [hfg]
        | false =>
          cases hins : lineInsertion m app a with
          | none => simp [emitLine, hfg, hins]
          | some fs => simp [emitLine, hfg, hins, strContains_mkFgLine]
      | false =>
        have hd : (del && strContains a fgPat) = false := by simp [hfg]
        cases hins : lineInsertion m app a with
        | none => simp [emitLine, hfg, hins, hd]
        | some fs =>
          rw [emitLine_insert hd hins]
          simp [hfg, strContains_mkFgLine, List.filter_cons]
  · rw [List.forall_iff_forall_mem]
    intro x hx
    rw [rewriteLines_eq_flatMap] at hx
    obtain ⟨a, ha, hxa⟩ := List.mem_flatMap.mp hx
    revert hxa
    unfold emitLine
    split
    · intro h; cases h
    · cases hins : lineInsertion m app a with
      | none =>
        intro h
        simp only [List.nil_append, List.mem_cons, List.not_mem_nil, or_false] at h
        exact Or.inl (h ▸ ha)
      | some fs =>
        intro h
        simp only [List.cons_append, List.nil_append, List.mem_cons,
          List.not_mem_nil, or_false] at h
        rcases h with h | h
        · exact Or.inr ⟨fs, h⟩
        · exact Or.inl (h ▸ ha)
  · rw [rewriteLines_eq_flatMap]
    induction ls with
    | nil => simp
    | cons a t ih =>
      rw [List.flatMap_cons]
      cases hins : lineInsertion m app a with
      | none =>
        have he : emitLine m false app a = [a] := by simp [emitLine, hins]
        rw [he]
        exact List.Sublist.cons₂ a ih
      | some fs =>
        have he : emitLine m false app a = [mkFgLine fs, a] := by
          simp [emitLine, hins]
        rw [he]
        exact List.Sublist.cons (mkFgLine fs) (List.Sublist.cons₂ a ih)

/-- Claim C10, counterexample: Rewriting is not idempotent at the text
level: a document with a trailing blank line is renormalised by the
`lines()`/`join("\n")` round-trip on the first pass and shortened again
on the second. -/
theorem C10_counterexample :
    add_filtergraph_to_producers "a\n\n" [] true none = "a\n" ∧
    add_filtergraph_to_producers (add_filtergraph_to_producers "a\n\n" [] true none)
        [] true none = "a" ∧
    add_filtergraph_to_producers (add_filtergraph_to_producers "a\n\n" [] true none)
        [] true none ≠ add_filtergraph_to_producers "a\n\n" [] true none := by
  refine ⟨rfl, rfl, by decide⟩

/-- Re-running the line loop with `delete_existing=true` on one line's
emission reproduces that emission: the inserted line is itself deleted
and re-inserted at the same position. -/
theorem emitLine_idempotent (m : List (String × String)) (app : Option String)
    (a : String) :
    (emitLine m true app a).flatMap (emitLine m true app) = emitLine m true app a := by
  cases hfg : strContains a fgPat with
  | true => rw [emitLine_delete hfg]; rfl
  | false =>
    cases hins : lineInsertion m app a with
    | none =>
      have he : emitLine m true app a = [a] := by simp [emitLine, hfg, hins]
      rw [he, List.flatMap_cons, he]
      simp
    | some fs =>
      have he : emitLine m true app a = [mkFgLine fs, a] := by
        rw [emitLine_insert (by simp [hfg]) hins]
      rw [he, List.flatMap_cons, List.flatMap_cons,
        emitLine_delete (strContains_mkFgLine fs), he]
      simp

/-- Claim C10, amended: At the line level the second pass is the identity
on the first pass's output: re-processing the emitted line sequence with
`delete_existing=true` and the same map reproduces it exactly. (At the
text level the claim fails only because `lines()`/`join("\n")`
renormalises the original text — e.g. a trailing blank line or a
`\r\r\n` sequence — as the counterexample shows.) -/
theorem C10_second_pass_identity_on_lines
    (ls : List String) (m : List (String × String)) (app : Option String) :
    rewriteLines (rewriteLines ls m true app) m true app =
      rewriteLines ls m true app := by
  rw [rewriteLines_eq_flatMap ls, rewriteLines_eq_flatMap, List.flatMap_assoc]
  congr 1
  funext a
  exact emitLine_idempotent m app a

/-! Helper lemmas about the compiler -/

/-- Unfold one step of the entry loop. -/
theorem processEntries_cons (doc : List TopElem) (e : Entry) (es : List Entry)
    (m : List (String × String)) :
    processEntries doc (e :: es) m =
      (processEntry doc m e).bind (fun m2 => processEntries doc es m2) := by
  simp [processEntries, List.foldlM_cons]

/-- The entry loop over an appended list. -/
theorem processEntries_append (doc : List TopElem) (l1 l2 : List Entry)
    (m : List (String × String)) :
    processEntries doc (l1 ++ l2) m =
      (processEntries doc l1 m).bind (fun m2 => processEntries doc l2 m2) := by
  simp [processEntries, List.foldlM_append]

/-- An entry whose joined filter string is empty leaves the map
untouched (and resolves no URL). -/
theorem processEntry_empty (doc : List TopElem) (m : List (String × String))
    {e : Entry} {p : String} (hp : e.producer = some p)
    (hfs : entryFilterString e.filters = "") :
    processEntry doc m e = some m := by
  simp [processEntry, hp, hfs]

/-- An entry with a non-empty filter string whose producer has no
resolvable media identity panics (`unwrap` on `None`). -/
theorem processEntry_panics (doc : List TopElem) (m : List (String × String))
    {e : Entry} {p : String} (hp : e.producer = some p)
    (hfs : entryFilterString e.filters ≠ "")
    (hurl : get_url_from_producer doc p = some none) :
    processEntry doc m e = none := by
  simp [processEntry, hp, hfs, hurl]

/-- Claim C1, amended: When some playlist entry yields a non-empty joined
filter string but its producer's media identity does not resolve
(`get_url_from_producer` returns `None` — in particular when the
referenced producer/chain element has neither a `kdenlive:originalurl`
nor a `resource` property), `get_filter_strings` does **not** complete
normally: the `unwrap` on line 58 of `mlt.rs` panics, modelled here as
the whole computation returning `none`. -/
theorem C1_unresolvable_identity_panics
    (doc : List TopElem) (pre post : List Entry) (e : Entry) (p : String)
    (hsplit : entriesOf doc = pre ++ e :: post)
    (hprod : e.producer = some p)
    (hfs : entryFilterString e.filters ≠ "")
    (hurl : get_url_from_producer doc p = some none) :
    get_filter_strings doc = none := by
  unfold get_filter_strings
  rw [hsplit, processEntries_append]
  cases h : processEntries doc pre [] with
  | none => rfl
  | some m =>
    simp [processEntries_cons, processEntry_panics doc m hprod hfs hurl]

/-- An active exposure filter element (used by several witnesses). -/
def exposureNode : List PropertyElem :=
  [⟨"mlt_service", some "avfilter.exposure"⟩,
   ⟨"av.exposure", some "0"⟩,
   ⟨"av.black", some "0"⟩]

/-- An entry referencing producer `p1` with one active exposure filter. -/
def c1Entry : Entry :=
  ⟨some "p1", [exposureNode]⟩

/-- A document whose producer `p1` exists but carries neither
`kdenlive:originalurl` nor `resource`. -/
def c1Doc : List TopElem :=
  [.producer (some "p1") [⟨"kdenlive:collapsed", some "1"⟩],
   .playlist [c1Entry]]

/-- Claim C1, counterexample: On `c1Doc` the entry's joined filter string
is non-empty and the referenced producer element exists but has neither
a `kdenlive:originalurl` nor a `resource` property; the claim says
`get_filter_strings` completes normally with no entry for that
producer, but it panics (`none`) instead. -/
theorem C1_counterexample :
    entryFilterString c1Entry.filters = "exposure=exposure=0:black=0" ∧
    findProducerProps c1Doc "p1" =
      some (some [⟨"kdenlive:collapsed", some "1"⟩]) ∧
    ([(⟨"kdenlive:collapsed", some "1"⟩ : PropertyElem)].find?
      (fun p => p.name == "kdenlive:originalurl")) = none ∧
    ([(⟨"kdenlive:collapsed", some "1"⟩ : PropertyElem)].find?
      (fun p => p.name == "resource")) = none ∧
    get_filter_strings c1Doc = none := by
  exact ⟨by decide, rfl, rfl, rfl, by decide⟩

/-- Claim C1, witness for the amended theorem. -/
theorem C1_witness :
    (entriesOf c1Doc = [] ++ c1Entry :: [] ∧
      c1Entry.producer = some "p1" ∧
      entryFilterString c1Entry.filters ≠ "" ∧
      get_url_from_producer c1Doc "p1" = some none) ∧
    get_filter_strings c1Doc = none := by
  refine ⟨⟨rfl, rfl, by decide, rfl⟩, ?_⟩
  exact C1_unresolvable_identity_panics c1Doc [] [] c1Entry "p1" rfl rfl
    (by decide) rfl

/-- What a successful `FilterLut` conversion guarantees about the
element. -/
theorem lutTryFrom_some {n : List PropertyElem} {f : FilterLut}
    (h : FilterLut.tryFrom n = some f) :
    get_property_value parseStr n "mlt_service" = some "avfilter.lut3d" ∧
    get_property_value parseStr n "av.file" = some f.file ∧
    get_property_value parseStr n "av.interp" = some f.interpolation ∧
    f.is_active = !((get_property_value parseI32 n "disable").getD 0 == 1) := by
  unfold FilterLut.tryFrom at h
  split at h
  · simp at h
  · next hserv =>
    rw [Option.bind_eq_some] at h
    obtain ⟨file, h1, h⟩ := h
    rw [Option.bind_eq_some] at h
    obtain ⟨interp, h2, h⟩ := h
    obtain rfl := (Option.some.inj h).symm
    exact ⟨not_not.mp hserv, h1, h2, rfl⟩

/-- What a successful `FilterEq` conversion guarantees about the
element. -/
theorem eqTryFrom_some {n : List PropertyElem} {f : FilterEq}
    (h : FilterEq.tryFrom n = some f) :
    get_property_value parseStr n "mlt_service" = some "avfilter.eq" ∧
    get_property_value parseF32 n "av.contrast" = some f.contrast ∧
    get_property_value parseF32 n "av.brightness" = some f.brightness ∧
    get_property_value parseF32 n "av.saturation" = some f.saturation ∧
    get_property_value parseF32 n "av.gamma" = some f.gamma ∧
    get_property_value parseF32 n "av.gamma_r" = some f.gamma_r ∧
    get_property_value parseF32 n "av.gamma_g" = some f.gamma_g ∧
    get_property_value parseF32 n "av.gamma_b" = some f.gamma_b ∧
    f.is_active = !((get_property_value parseI32 n "disable").getD 0 == 1) := by
  unfold FilterEq.tryFrom at h
  split at h
  · simp at h
  · next hserv =>
    rw [Option.bind_eq_some] at h
    obtain ⟨c1, h1, h⟩ := h
    rw [Option.bind_eq_some] at h
    obtain ⟨b1, h2, h⟩ := h
    rw [Option.bind_eq_some] at h
    obtain ⟨s1, h3, h⟩ := h
    rw [Option.bind_eq_some] at h
    obtain ⟨g1, h4, h⟩ := h
    rw [Option.bind_eq_some] at h
    obtain ⟨r1, h5, h⟩ := h
    rw [Option.bind_eq_some] at h
    obtain ⟨g2, h6, h⟩ := h
    rw [Option.bind_eq_some] at h
    obtain ⟨b2, h7, h⟩ := h
    obtain rfl := (Option.some.inj h).symm
    exact ⟨not_not.mp hserv, h1, h2, h3, h4, h5, h6, h7, rfl⟩

/-- What a successful `FilterExposure` conversion guarantees about the
element. -/
theorem exposureTryFrom_some {n : List PropertyElem} {f : FilterExposure}
    (h : FilterExposure.tryFrom n = some f) :
    get_property_value parseStr n "mlt_service" = some "avfilter.exposure" ∧
    get_property_value parseF32 n "av.exposure" = some f.exposure ∧
    get_property_value parseF32 n "av.black" = some f.black ∧
    f.is_active = !((get_property_value parseI32 n "disable").getD 0 == 1) := by
  unfold FilterExposure.tryFrom at h
  split at h
  · simp at h
  · next hserv =>
    rw [Option.bind_eq_some] at h
    obtain ⟨e1, h1, h⟩ := h
    rw [Option.bind_eq_some] at h
    obtain ⟨b1, h2, h⟩ := h
    obtain rfl := (Option.some.inj h).symm
    exact ⟨not_not.mp hserv, h1, h2, rfl⟩

/-- What a successful `FilterColortemp` conversion guarantees about the
element. -/
theorem colortempTryFrom_some {n : List PropertyElem} {f : FilterColortemp}
    (h : FilterColortemp.tryFrom n = some f) :
    get_property_value parseStr n "mlt_service" = some "avfilter.colortemperature" ∧
    get_property_value parseU32 n "av.temperature" = some f.temperature ∧
    f.is_active = !((get_property_value parseI32 n "disable").getD 0 == 1) := by
  unfold FilterColortemp.tryFrom at h
  split at h
  · simp at h
  · next hserv =>
    rw [Option.bind_eq_some] at h
    obtain ⟨t1, h1, h⟩ := h
    obtain rfl := (Option.some.inj h).symm
    exact ⟨not_not.mp hserv, h1, rfl⟩

/-- Claim C7: First part: a recognised filter whose `is_active` is `false`
contributes nothing to the joined filter string (the remaining active
renders are joined in their original order). Second part: an entry whose
joined string is empty (all filters inactive or unrecognised) leaves the
result map for the whole document untouched — in particular it produces
no entry for its producer. -/
theorem C7_inactive_and_empty_entries_dropped :
    (∀ (pre : List (List PropertyElem)) (f : List PropertyElem) post s,
      parse_filter f = some s → s.is_active = false →
      entryFilterString (pre ++ f :: post) = entryFilterString (pre ++ post)) ∧
    (∀ (doc : List TopElem) (pre post : List Entry) (e : Entry) (p : String)
       (m : List (String × String)),
      e.producer = some p → entryFilterString e.filters = "" →
      processEntries doc (pre ++ e :: post) m =
        processEntries doc (pre ++ post) m) := by
  constructor
  · intro pre f post s hp ha
    unfold entryFilterString
    rw [List.filterMap_append, List.filterMap_append, List.filterMap_cons]
    have hnone : ((parse_filter f).filter Filt.is_active).map Filt.to_filter_string =
        none := by
      rw [hp]
      simp [Option.filter, ha]
    rw [hnone]
  · intro doc pre post e p m hp hfs
    rw [processEntries_append, processEntries_append]
    cases h : processEntries doc pre m with
    | none => rfl
    | some m2 => simp [processEntries_cons, processEntry_empty doc m2 hp hfs]

/-- An exposure filter element that is disabled (`disable=1`). -/
def disabledExposureNode : List PropertyElem :=
  [⟨"mlt_service", some "avfilter.exposure"⟩,
   ⟨"av.exposure", some "0"⟩,
   ⟨"av.black", some "0"⟩,
   ⟨"disable", some "1"⟩]

/-- An entry whose only filter is inactive, so its joined string is
empty. -/
def allInactiveEntry : Entry :=
  ⟨some "p1", [disabledExposureNode]⟩

/-- Claim C7, witness. -/
theorem C7_witness :
    ((parse_filter disabledExposureNode = some (.exposure ⟨false, ⟨0, 0⟩, ⟨0, 0⟩⟩) ∧
      (Filt.exposure ⟨false, ⟨0, 0⟩, ⟨0, 0⟩⟩).is_active = false) ∧
      entryFilterString ([exposureNode] ++ disabledExposureNode :: []) =
        entryFilterString ([exposureNode] ++ []) ∧
    (allInactiveEntry.producer = some "p1" ∧
      entryFilterString allInactiveEntry.filters = "") ∧
      processEntries ([] : List TopElem) ([] ++ allInactiveEntry :: []) [] =
        processEntries ([] : List TopElem) ([] ++ []) []) := by
  refine ⟨⟨by decide, rfl⟩, ?_, ⟨rfl, by decide⟩, ?_⟩
  · exact C7_inactive_and_empty_entries_dropped.1 [exposureNode]
      disabledExposureNode [] (.exposure ⟨false, ⟨0, 0⟩, ⟨0, 0⟩⟩) (by decide) rfl
  · exact C7_inactive_and_empty_entries_dropped.2 [] [] [] allInactiveEntry "p1" []
      rfl (by decide)

/-- The required `av.*` parameters of each filter kind, each present and
parsed at its expected type to the stored field value. -/
def requiredParams : Filt → List PropertyElem → Prop
  | .lut f, n =>
    get_property_value parseStr n "av.file" = some f.file ∧
    get_property_value parseStr n "av.interp" = some f.interpolation
  | .eq f, n =>
    get_property_value parseF32 n "av.contrast" = some f.contrast ∧
    get_property_value parseF32 n "av.brightness" = some f.brightness ∧
    get_property_value parseF32 n "av.saturation" = some f.saturation ∧
    get_property_value parseF32 n "av.gamma" = some f.gamma ∧
    get_property_value parseF32 n "av.gamma_r" = some f.gamma_r ∧
    get_property_value parseF32 n "av.gamma_g" = some f.gamma_g ∧
    get_property_value parseF32 n "av.gamma_b" = some f.gamma_b
  | .exposure f, n =>
    get_property_value parseF32 n "av.exposure" = some f.exposure ∧
    get_property_value parseF32 n "av.black" = some f.black
  | .colortemp f, n =>
    get_property_value parseU32 n "av.temperature" = some f.temperature

/-- Claim C8: First part: a filter element converts to a populated
`FilterSpec` only if its `mlt_service` property equals the variant's
fixed service identifier and every required `av.*` parameter is present
and parses at its expected type (to the stored value). Second part: an
element that converts to nothing (missing/unparseable parameters or
unrecognised service) is silently skipped and the remaining elements are
still processed. -/
theorem C8_parse_requires_service_and_params :
    (∀ (n : List PropertyElem) (f : Filt), parse_filter n = some f →
      get_property_value parseStr n "mlt_service" = some f.service ∧
      requiredParams f n) ∧
    (∀ (f : List PropertyElem) (rest : List (List PropertyElem)),
      parse_filter f = none →
      entryFilterString (f :: rest) = entryFilterString rest) := by
  constructor
  · intro n f h
    unfold parse_filter at h
    split at h
    · next f1 h1 =>
      obtain rfl := (Option.some.inj h).symm
      obtain ⟨hs, ha, hb, _⟩ := lutTryFrom_some h1
      exact ⟨hs, ha, hb⟩
    · split at h
      · next f1 h1 =>
        obtain rfl := (Option.some.inj h).symm
        obtain ⟨hs, h1, h2, h3, h4, h5, h6, h7, _⟩ := eqTryFrom_some h1
        exact ⟨hs, h1, h2, h3, h4, h5, h6, h7⟩
      · split at h
        · next f1 h1 =>
          obtain rfl := (Option.some.inj h).symm
          obtain ⟨hs, ha, hb, _⟩ := exposureTryFrom_some h1
          exact ⟨hs, ha, hb⟩
        · split at h
          · next f1 h1 =>
            obtain rfl := (Option.some.inj h).symm
            obtain ⟨hs, ha, _⟩ := colortempTryFrom_some h1
            exact ⟨hs, ha⟩
          · simp at h
  · intro f rest h
    unfold entryFilterString
    rw [List.filterMap_cons, h]
    rfl

/-- A valid LUT filter element. -/
def lutNode : List PropertyElem :=
  [⟨"mlt_service", some "avfilter.lut3d"⟩,
   ⟨"av.file", some "x.cube"⟩,
   ⟨"av.interp", some "tetrahedral"⟩]

/-- An `avfilter.eq` element missing all of its required parameters. -/
def badEqNode : List PropertyElem :=
  [⟨"mlt_service", some "avfilter.eq"⟩]

/-- Claim C8, witness. -/
theorem C8_witness :
    (parse_filter lutNode = some (.lut ⟨true, "x.cube", "tetrahedral"⟩) ∧
      get_property_value parseStr lutNode "mlt_service" =
        some (Filt.lut ⟨true, "x.cube", "tetrahedral"⟩).service ∧
      requiredParams (.lut ⟨true, "x.cube", "tetrahedral"⟩) lutNode) ∧
    (parse_filter badEqNode = none ∧
      entryFilterString (badEqNode :: [exposureNode]) =
        entryFilterString [exposureNode]) := by
  refine ⟨⟨by decide, ?_, ?_⟩, by decide, ?_⟩
  · exact (C8_parse_requires_service_and_params.1 lutNode _ (by decide)).1
  · exact (C8_parse_requires_service_and_params.1 lutNode _ (by decide)).2
  · exact C8_parse_requires_service_and_params.2 badEqNode [exposureNode] (by decide)

/-- Claim C6: For every recognised filter kind, the parsed spec is
inactive exactly when the element's `disable` property carries the value
`1` (read through the property-value rule of §3: timestamp prefix
stripped, then parsed as an integer); `disable` absent, unparseable, or
carrying any other value yields `is_active = true`. -/
theorem C6_disable_one_means_inactive :
    ∀ (n : List PropertyElem) (f : Filt), parse_filter n = some f →
      (f.is_active = false ↔ get_property_value parseI32 n "disable" = some 1) := by
  have hdis : ∀ o : Option Int, ((o.getD 0 == 1) = true) ↔ o = some 1 := by
    intro o
    cases o with
    | none => simp
    | some k => simp
  have hbool : ∀ (b : Bool), ((!b) = false) ↔ (b = true) := by decide
  intro n f h
  have hact : f.is_active = !((get_property_value parseI32 n "disable").getD 0 == 1) := by
    unfold parse_filter at h
    split at h
    · next f1 h1 =>
      obtain rfl := (Option.some.inj h).symm
      exact (lutTryFrom_some h1).2.2.2
    · split at h
      · next f1 h1 =>
        obtain rfl := (Option.some.inj h).symm
        exact (eqTryFrom_some h1).2.2.2.2.2.2.2.2
      · split at h
        · next f1 h1 =>
          obtain rfl := (Option.some.inj h).symm
          exact (exposureTryFrom_some h1).2.2.2
        · split at h
          · next f1 h1 =>
            obtain rfl := (Option.some.inj h).symm
            exact (colortempTryFrom_some h1).2.2
          · simp at h
  rw [hact, hbool]
  exact hdis _

/-- Claim C6, witness. -/
theorem C6_witness :
    (parse_filter disabledExposureNode = some (.exposure ⟨false, ⟨0, 0⟩, ⟨0, 0⟩⟩) ∧
      ((Filt.exposure ⟨false, ⟨0, 0⟩, ⟨0, 0⟩⟩).is_active = false ↔
        get_property_value parseI32 disabledExposureNode "disable" = some 1)) ∧
    (parse_filter exposureNode = some (.exposure ⟨true, ⟨0, 0⟩, ⟨0, 0⟩⟩) ∧
      ((Filt.exposure ⟨true, ⟨0, 0⟩, ⟨0, 0⟩⟩).is_active = false ↔
        get_property_value parseI32 exposureNode "disable" = some 1)) := by
  refine ⟨⟨by decide, ?_⟩, by decide, ?_⟩
  · exact C6_disable_one_means_inactive disabledExposureNode _ (by decide)
  · exact C6_disable_one_means_inactive exposureNode _ (by decide)

/-- The extraction rule exactly as the spec words it ("the real value is
whatever follows the last `=`"), written from the spec for comparison
with the source's `afterFirstEq`. -/
def specAfterLastEq (v : String) : String :=
  String.mk ((v.data.reverse.takeWhile (fun c => c != '=')).reverse)

/-- Claim C3, counterexample: On the value `"a=b=c"` (read as a `String`,
a valid target type), `get_property_value` parses the substring after
the *first* `'='`, namely `"b=c"`, not the substring after the last
`'='` (`"c"`) that the claim specifies. -/
theorem C3_counterexample :
    get_property_value parseStr [⟨"x", some "a=b=c"⟩] "x" = some "b=c" ∧
    specAfterLastEq "a=b=c" = "c" ∧
    get_property_value parseStr [⟨"x", some "a=b=c"⟩] "x" ≠
      some (specAfterLastEq "a=b=c") := by
  refine ⟨by decide, by decide, by decide⟩

/-- A value built as `tc ++ "=" ++ v` contains `'='`. -/
theorem containsChar_concat_eq (tc v : String) :
    containsChar (tc ++ "=" ++ v) '=' = true := by
  simp [containsChar, String.data_append]

/-- Dropping up to the first `'='` of `tc ++ "=" ++ v` yields `v` when
`tc` itself contains no `'='`. -/
theorem afterFirstEq_concat {tc : String} (v : String)
    (htc : containsChar tc '=' = false) :
    afterFirstEq (tc ++ "=" ++ v) = v := by
  unfold afterFirstEq
  rw [String.data_append, String.data_append]
  have hall : ∀ c ∈ tc.data, (fun c => c != '=') c = true := by
    intro c hc
    have hb : (c == '=') = false := by
      cases hcc : (c == '=') with
      | false => rfl
      | true =>
        exfalso
        have hany : containsChar tc '=' = true := by
          unfold containsChar
          exact List.any_eq_true.mpr ⟨c, hc, hcc⟩
        rw [htc] at hany
        cases hany
    simp [bne, hb]
  have hnil : tc.data.dropWhile (fun c => c != '=') = [] :=
    List.dropWhile_eq_nil_iff.mpr hall
  rw [List.append_assoc, List.dropWhile_append, hnil]
  simp

/-- Claim C3, amended: The value rule of `get_property_value`: when the
text contains at least one `'='`, the parsed value is the substring
following the **first** `'='` (not the last); a value with no `'='` is
parsed whole. In particular a timestamp-prefixed value `TC=v` (with no
`'='` in `TC` or `v`) parses identically to the bare value `v`, for
every target type. -/
theorem C3_value_after_first_eq :
    (∀ {α : Type} (parse : String → Option α) (props : List PropertyElem)
       (name tc v : String),
      props.find? (fun p => p.name == name) = some ⟨name, some (tc ++ "=" ++ v)⟩ →
      containsChar tc '=' = false → containsChar v '=' = false →
      get_property_value parse props name = parse v) ∧
    (∀ {α : Type} (parse : String → Option α) (props : List PropertyElem)
       (name v : String),
      props.find? (fun p => p.name == name) = some ⟨name, some v⟩ →
      containsChar v '=' = false →
      get_property_value parse props name = parse v) ∧
    (∀ {α : Type} (parse : String → Option α) (props : List PropertyElem)
       (name v : String),
      props.find? (fun p => p.name == name) = some ⟨name, some v⟩ →
      containsChar v '=' = true →
      get_property_value parse props name = parse (afterFirstEq v)) := by
  refine ⟨?_, ?_, ?_⟩
  · intro α parse props name tc v hfind htc hv
    unfold get_property_value
    rw [hfind]
    simp [containsChar_concat_eq, afterFirstEq_concat v htc]
  · intro α parse props name v hfind hv
    unfold get_property_value
    rw [hfind]
    simp [hv]
  · intro α parse props name v hfind hv
    unfold get_property_value
    rw [hfind]
    simp [hv]

/-- Claim C3, witness for the amended theorem. -/
theorem C3_witness :
    (([(⟨"a", some "00:00:00.000=3.5"⟩ : PropertyElem)].find?
        (fun p => p.name == "a") =
        some ⟨"a", some ("00:00:00.000" ++ "=" ++ "3.5")⟩ ∧
      containsChar "00:00:00.000" '=' = false ∧
      containsChar "3.5" '=' = false) ∧
    get_property_value parseF32 [⟨"a", some "00:00:00.000=3.5"⟩] "a" =
      parseF32 "3.5" ∧
    get_property_value parseF32 [⟨"a", some "3.5"⟩] "a" = parseF32 "3.5" ∧
    get_property_value parseStr [⟨"x", some "a=b=c"⟩] "x" =
      parseStr (afterFirstEq "a=b=c")) := by
  refine ⟨⟨by decide, by decide, by decide⟩, ?_, ?_, ?_⟩
  · exact C3_value_after_first_eq.1 parseF32 [⟨"a", some "00:00:00.000=3.5"⟩]
      "a" "00:00:00.000" "3.5" (by decide) (by decide) (by decide)
  · exact C3_value_after_first_eq.2.1 parseF32 [⟨"a", some "3.5"⟩] "a" "3.5"
      (by decide) (by decide)
  · exact C3_value_after_first_eq.2.2 parseStr [⟨"x", some "a=b=c"⟩] "x" "a=b=c"
      (by decide) (by decide)

/-- Claim C9: Rendering is a fixed-key-order template per filter kind, and
the pinned strings come out exactly: Exposure with `exposure=0`,
`black=0` renders `"exposure=exposure=0:black=0"`; a Lut spec renders
`"lut3d=file=<f>:interp=<i>"`; a ColorTemperature spec renders
`"colortemperature=temperature=<t>:pl=1"`; an Eq spec renders the
`eq=contrast=...:brightness=...:saturation=...:gamma=...:gamma_r=...`
`:gamma_g=...:gamma_b=...` template, all numeric fields formatted with
the host language's default number-to-string conversion (`fmtF32`,
`toString` for the `u32` temperature). -/
theorem C9_render_templates_and_pinned_strings :
    (∀ a : Bool, FilterExposure.to_filter_string ⟨a, ⟨0, 0⟩, ⟨0, 0⟩⟩ =
      "exposure=exposure=0:black=0") ∧
    (∀ (a : Bool) (e b : F32), FilterExposure.to_filter_string ⟨a, e, b⟩ =
      "exposure=exposure=" ++ fmtF32 e ++ ":black=" ++ fmtF32 b) ∧
    (∀ (a : Bool) (f i : String), FilterLut.to_filter_string ⟨a, f, i⟩ =
      "lut3d=file=" ++ f ++ ":interp=" ++ i) ∧
    (∀ (a : Bool) (t : Nat), FilterColortemp.to_filter_string ⟨a, t⟩ =
      "colortemperature=temperature=" ++ toString t ++ ":pl=1") ∧
    (∀ (a : Bool) (c b s g gr gg gb : F32),
      FilterEq.to_filter_string ⟨a, c, b, s, g, gr, gg, gb⟩ =
        "eq=contrast=" ++ fmtF32 c ++ ":brightness=" ++ fmtF32 b ++
        ":saturation=" ++ fmtF32 s ++ ":gamma=" ++ fmtF32 g ++
        ":gamma_r=" ++ fmtF32 gr ++ ":gamma_g=" ++ fmtF32 gg ++
        ":gamma_b=" ++ fmtF32 gb) ∧
    FilterLut.to_filter_string ⟨true, "x.cube", "tetrahedral"⟩ =
      "lut3d=file=x.cube:interp=tetrahedral" ∧
    FilterColortemp.to_filter_string ⟨true, 6500⟩ =
      "colortemperature=temperature=6500:pl=1" ∧
    FilterEq.to_filter_string
        ⟨true, ⟨1, 0⟩, ⟨0, 0⟩, ⟨1, 0⟩, ⟨1, 0⟩, ⟨1, 0⟩, ⟨1, 0⟩, ⟨1, 0⟩⟩ =
      "eq=contrast=1:brightness=0:saturation=1:gamma=1:gamma_r=1:gamma_g=1:gamma_b=1" ∧
    FilterExposure.to_filter_string ⟨true, ⟨35, -1⟩, ⟨-5, -1⟩⟩ =
      "exposure=exposure=3.5:black=-0.5" := by
  refine ⟨fun a => ?_, fun a e b => rfl, fun a f i => rfl, fun a t => rfl,
    fun a c b s g gr gg gb => rfl, by decide, by decide, by decide, by decide⟩
  show "exposure=exposure=" ++ fmtF32 ⟨0, 0⟩ ++ ":black=" ++ fmtF32 ⟨0, 0⟩ =
    "exposure=exposure=0:black=0"
  decide
